import Mathlib

/-!
# Profanity session coordinator (`src/profanity.c`)

A shallow embedding of the idle/presence coordinator `_handle_idle_time`, the
command router `prof_process_input`, the chat-state dispatcher
(`prof_handle_idle`, `prof_handle_activity`) and the main loop `prof_run`,
together with the properties of the natural-language specification that concern
them.

Conventions of the embedding.

* The file-level flag `static gboolean idle` is threaded explicitly: every
  function that reads or writes it takes the old value and returns the new one.
  `idle = false` is the specification's state `Armed`, `idle = true` is `Engaged`.
* Values read from collaborators (`prefs_get_*`, `ui_get_idle_time`,
  `accounts_get_last_presence`) are inputs of the embedded function.
* Calls into collaborators that act on the outside world are recorded, in
  program order, in a list of `Call`s.
* `prof_run` also records its two polls, `jabber_get_connection_status` and
  `ui_get_char`, and each invocation of `_handle_idle_time`, because the
  specification fixes their place within an iteration.
* A loop that need not end is run on a supplied list of iterations; the outcome
  says whether the loop has ended or the list ran out first.
* A dereference of a `NULL` result makes the outcome `none`.
* `gint` is a 32 bit two's complement integer, `unsigned long` is 64 bits wide.
* A C string is the list of its characters (without the terminating NUL).
-/

namespace Profanity

/-! ## Data model -/

/-- A NUL-terminated C string, as the list of its characters. -/
abbrev CStr := List Char

/-- Modelled from the spec: the enumeration `resource_presence_t` is declared in
the header `resource.h`, which is not part of the source at hand.  The three
enumerators the source names are kept; `RESOURCE_OTHER n` stands for every
further enumerator of the header. -/
inductive resource_presence_t where
  | RESOURCE_ONLINE
  | RESOURCE_CHAT
  | RESOURCE_AWAY
  | RESOURCE_OTHER (n : Nat)
  deriving DecidableEq, Repr

/-- Modelled from the spec: the enumeration `contact_presence_t` is declared in
the header `contact.h`, which is not part of the source at hand.  The source
names the enumerator `CONTACT_ONLINE` only. -/
inductive contact_presence_t where
  | CONTACT_ONLINE
  | CONTACT_OTHER (n : Nat)
  deriving DecidableEq, Repr

/-- Modelled from the spec: the enumeration `jabber_conn_status_t` is declared in
the header `xmpp/xmpp.h`, which is not part of the source at hand.  The source
names the enumerator `JABBER_CONNECTED` only; `JABBER_OTHER n` stands for every
other connection status. -/
inductive jabber_conn_status_t where
  | JABBER_CONNECTED
  | JABBER_OTHER (n : Nat)
  deriving DecidableEq, Repr

/-- Modelled from the spec: the enumeration `win_type_t` is declared in a header of
the user interface, which is not part of the source at hand.  The source names
the enumerator `WIN_CHAT` only; `WIN_OTHER n` stands for every other window
type. -/
inductive win_type_t where
  | WIN_CHAT
  | WIN_OTHER (n : Nat)
  deriving DecidableEq, Repr

/-- Modelled from the spec: the chat state of a conversation, declared in the header
`chat_state.h`, which is not part of the source at hand.  The specification
lists the states active, composing, paused, inactive and gone. -/
inductive ChatState where
  | Active
  | Composing
  | Paused
  | Inactive
  | Gone
  deriving DecidableEq, Repr

/-- Calls into collaborators, recorded in program order. -/
inductive Call where
  /-- The call `presence_update(status, msg, idle)`; `msg = none` is `NULL`. -/
  | presence_update (status : resource_presence_t) (msg : Option String) (idle_secs : Nat)
  /-- The call `ui_auto_away()`. -/
  | ui_auto_away
  /-- The call `ui_end_auto_away()`. -/
  | ui_end_auto_away
  /-- The call `ui_titlebar_presence(presence)`. -/
  | ui_titlebar_presence (presence : contact_presence_t)
  /-- The call `log_debug("Input received: %s", inp)`. -/
  | log_debug (inp : CStr)
  /-- The call `cmd_history_append(inp)`. -/
  | cmd_history_append (inp : CStr)
  /-- The call `cmd_execute(command, inp)`; `command = none` is `NULL`. -/
  | cmd_execute (command : Option CStr) (inp : CStr)
  /-- The call `cmd_execute_default(inp)`. -/
  | cmd_execute_default (inp : CStr)
  /-- The call `ui_input_clear()`. -/
  | ui_input_clear
  /-- The call `roster_reset_search_attempts()`. -/
  | roster_reset_search_attempts
  /-- The call `_init(disable_tls, log_level)` of the start-up routine. -/
  | init (disable_tls : Int) (log_level : CStr)
  /-- The call `plugins_on_start()`. -/
  | plugins_on_start
  /-- The call `ui_update()`. -/
  | ui_update
  /-- The call `log_info(msg)`. -/
  | log_info (msg : String)
  /-- The query `jabber_get_connection_status()` made by `prof_run`. -/
  | jabber_get_connection_status
  /-- The invocation `_handle_idle_time()` made by `prof_run`; the calls of the
  invocation follow it. -/
  | handle_idle_time
  /-- The poll `ui_get_char(inp, &size)`. -/
  | ui_get_char
  /-- The call `plugins_run_timed()`. -/
  | plugins_run_timed
  /-- The call `otr_poll()`. -/
  | otr_poll
  /-- The call `notify_remind()`. -/
  | notify_remind
  /-- The call `jabber_process_events()`. -/
  | jabber_process_events
  /-- The call `chat_state_handle_idle(barejid, state)`. -/
  | chat_state_handle_idle (barejid : CStr) (state : ChatState)
  /-- The call `chat_state_handle_typing(barejid, state)`. -/
  | chat_state_handle_typing (barejid : CStr) (state : ChatState)
  deriving DecidableEq, Repr

/-- Whether a recorded call is a presence update. -/
def Call.isPresenceUpdate : Call → Bool
  | .presence_update _ _ _ => true
  | _ => false

/-- Whether a recorded call is one of the user-interface notifications of the
idle coordinator. -/
def Call.isUiNotification : Call → Bool
  | .ui_auto_away => true
  | .ui_end_auto_away => true
  | .ui_titlebar_presence _ => true
  | _ => false

/-! ## Machine arithmetic -/

/-- The value of a mathematical integer stored in a `gint`
(32 bit, two's complement). -/
def wrap_gint (x : Int) : Int := (x + 2 ^ 31) % 2 ^ 32 - 2 ^ 31

/-- The conversion of a `gint` to `unsigned long` (64 bit) that the usual
arithmetic conversions apply when the two are compared. -/
def gint_to_ulong (x : Int) : Nat := (x % 2 ^ 64).toNat

/-! ## The idle coordinator -/

/-- Everything one invocation of `_handle_idle_time` reads from its
collaborators. -/
structure IdleInputs where
  /-- The result of `prefs_get_autoaway_time()`, in minutes (a `gint`). -/
  autoaway_time : Int
  /-- The result of `ui_get_idle_time()`, in milliseconds. -/
  idle_ms : Nat
  /-- The result of `prefs_get_string(PREF_AUTOAWAY_MODE)`. -/
  autoaway_mode : String
  /-- The result of `accounts_get_last_presence(jabber_get_account_name())`. -/
  current_presence : resource_presence_t
  /-- The result of `prefs_get_string(PREF_AUTOAWAY_MESSAGE)`; `none` is `NULL`. -/
  autoaway_message : Option String
  /-- The result of `prefs_get_boolean(PREF_AUTOAWAY_CHECK)`. -/
  autoaway_check : Bool
  deriving DecidableEq, Repr

/-- The local `gint prefs_time = prefs_get_autoaway_time() * 60000`. -/
def prefs_time (autoaway_time : Int) : Int := wrap_gint (autoaway_time * 60000)

/-- The function `_handle_idle_time`: from the old value of the flag `idle` and the
values read this invocation, the new value of the flag and the calls made. -/
def _handle_idle_time (idle : Bool) (i : IdleInputs) : Bool × List Call :=
  let prefs_time := prefs_time i.autoaway_time
  let idle_ms := i.idle_ms
  let pref_autoaway_mode := i.autoaway_mode
  if !idle then
    let current_presence := i.current_presence
    if current_presence = .RESOURCE_ONLINE ∨ current_presence = .RESOURCE_CHAT then
      if idle_ms ≥ gint_to_ulong prefs_time then
        let pref_autoaway_message := i.autoaway_message
        if pref_autoaway_mode = "away" then
          (true, [.presence_update .RESOURCE_AWAY pref_autoaway_message 0, .ui_auto_away])
        else if pref_autoaway_mode = "idle" then
          (true, [.presence_update .RESOURCE_ONLINE pref_autoaway_message (idle_ms / 1000)])
        else
          (true, [])
      else
        (idle, [])
    else
      (idle, [])
  else
    if idle_ms < gint_to_ulong prefs_time then
      if i.autoaway_check then
        if pref_autoaway_mode = "away" then
          (false, [.presence_update .RESOURCE_ONLINE none 0, .ui_end_auto_away])
        else if pref_autoaway_mode = "idle" then
          (false, [.presence_update .RESOURCE_ONLINE none 0,
                   .ui_titlebar_presence .CONTACT_ONLINE])
        else
          (false, [])
      else
        (false, [])
    else
      (idle, [])

/-- The presences the coordinator treats as available: online and chat. -/
def presenceAvailable (p : resource_presence_t) : Prop :=
  p = .RESOURCE_ONLINE ∨ p = .RESOURCE_CHAT

instance (p : resource_presence_t) : Decidable (presenceAvailable p) := by
  unfold presenceAvailable; infer_instance

/-- The number of presence updates among recorded calls. -/
def countPresenceUpdates (cs : List Call) : Nat := cs.countP Call.isPresenceUpdate

/-! ## Predicates of the specification on the inputs of the coordinator -/

/-- The configured threshold is one whose product with 60000 fits a `gint`. -/
def thresholdFits (i : IdleInputs) : Prop :=
  0 ≤ i.autoaway_time ∧ i.autoaway_time ≤ 35791

instance (i : IdleInputs) : Decidable (thresholdFits i) := by
  unfold thresholdFits; infer_instance

/-- The measured idle time has reached the configured threshold, compared exactly
(in milliseconds, over the integers). -/
def reachedThreshold (i : IdleInputs) : Prop :=
  i.autoaway_time * 60000 ≤ (i.idle_ms : Int)

instance (i : IdleInputs) : Decidable (reachedThreshold i) := by
  unfold reachedThreshold; infer_instance

/-! ## The command router -/

/-- The glib predicate `g_ascii_isspace`: space, horizontal tab, line feed,
form feed and carriage return. -/
def g_ascii_isspace (c : Char) : Bool :=
  c = ' ' || c = '\t' || c = '\n' || c = Char.ofNat 12 || c = '\r'

/-- The glib function `g_strchug`: removes leading whitespace. -/
def g_strchug (s : CStr) : CStr := s.dropWhile g_ascii_isspace

/-- The glib function `g_strchomp`: removes trailing whitespace. -/
def g_strchomp (s : CStr) : CStr := (s.reverse.dropWhile g_ascii_isspace).reverse

/-- The glib macro `g_strstrip(s)`, which is `g_strchomp(g_strchug(s))`. -/
def g_strstrip (s : CStr) : CStr := g_strchomp (g_strchug s)

/-- The C library function `strlen`. -/
def strlen (s : CStr) : Nat := s.length

/-- The first call `strtok(s, delim)` on a string: leading delimiter characters are
skipped; if nothing is left the result is `NULL` (`none`), otherwise the token
runs up to the next delimiter character or the end of the string. -/
def strtok (s delim : CStr) : Option CStr :=
  let start := s.dropWhile (fun c => delim.contains c)
  if start.isEmpty then none
  else some (start.takeWhile (fun c => !delim.contains c))

/-- The results of the two dispatch collaborators `cmd_execute` and
`cmd_execute_default` for the call made during one routed line (`true` is
continue, `false` is terminate). -/
structure CommandCollaborators where
  /-- The value returned by `cmd_execute(command, inp)`. -/
  cmd_execute : Option CStr → CStr → Bool
  /-- The value returned by `cmd_execute_default(inp)`. -/
  cmd_execute_default : CStr → Bool

/-- What one call of `prof_process_input` leaves behind. -/
structure InputOutcome where
  /-- The returned `gboolean`. -/
  result : Bool
  /-- The contents of the buffer `inp` after the call (stripped in place). -/
  inp : CStr
  /-- The calls made, in program order. -/
  calls : List Call
  deriving DecidableEq, Repr

/-- The function `prof_process_input`. -/
def prof_process_input (c : CommandCollaborators) (raw : CStr) : InputOutcome :=
  let log := [Call.log_debug raw]
  let inp := g_strstrip raw
  let hist := if strlen inp > 0 then [Call.cmd_history_append inp] else []
  let dispatch : Bool × List Call :=
    if strlen inp = 0 then
      (true, [])
    else if inp.head? = some '/' then
      let inp_cpy := inp
      let command := strtok inp_cpy [' ']
      (c.cmd_execute command inp, [Call.cmd_execute command inp])
    else
      (c.cmd_execute_default inp, [Call.cmd_execute_default inp])
  { result := dispatch.1
    inp := inp
    calls := log ++ hist ++ dispatch.2
      ++ [Call.ui_input_clear, Call.roster_reset_search_attempts] }

/-! ## Vocabulary of the specification for submitted lines -/

/-- The first token of a line when tokens are delimited by the characters that
satisfy `isDelim`: the longest prefix free of delimiters. -/
def firstTokenBy (isDelim : Char → Bool) (s : CStr) : CStr :=
  s.takeWhile (fun c => !isDelim c)

/-- The first whitespace-delimited token, in the words of the specification. -/
def firstWhitespaceToken (s : CStr) : CStr := firstTokenBy g_ascii_isspace s

/-- The first token delimited by the space character only. -/
def firstSpaceToken (s : CStr) : CStr := firstTokenBy (fun c => c = ' ') s

/-- A line that is empty or consists only of whitespace. -/
def isBlank (s : CStr) : Prop := ∀ c ∈ s, g_ascii_isspace c = true

instance (s : CStr) : Decidable (isBlank s) := by
  unfold isBlank; infer_instance

/-- The dispatch calls (to either collaborator) among recorded calls. -/
def Call.isDispatch : Call → Bool
  | .cmd_execute _ _ => true
  | .cmd_execute_default _ => true
  | _ => false

/-- The history appends among recorded calls. -/
def Call.isHistoryAppend : Call → Bool
  | .cmd_history_append _ => true
  | _ => false

/-! ## The chat-state dispatcher -/

/-- The two fields of the structure `ProfChatWin` that the source reads. -/
structure ProfChatWin where
  /-- The field `barejid`. -/
  barejid : CStr
  /-- The field `state`. -/
  state : ChatState
  deriving DecidableEq, Repr

/-- Everything `prof_handle_idle` reads from its collaborators. -/
structure HandleIdleInputs where
  /-- The result of `jabber_get_connection_status()`. -/
  status : jabber_conn_status_t
  /-- The list returned by `ui_get_chat_recipients()`. -/
  recipients : List CStr
  /-- The result of `wins_get_chat(barejid)`; `none` is `NULL`. -/
  wins_get_chat : CStr → Option ProfChatWin

/-- The `while (curr != NULL)` loop of `prof_handle_idle`.  The result is `none`
when `wins_get_chat` returns `NULL` for a listed recipient, as the source
dereferences the result unchecked. -/
def prof_handle_idle_loop (wins_get_chat : CStr → Option ProfChatWin) :
    List CStr → Option (List Call)
  | [] => some []
  | barejid :: curr =>
    match wins_get_chat barejid with
    | none => none
    | some chatwin =>
      match prof_handle_idle_loop wins_get_chat curr with
      | none => none
      | some calls => some (.chat_state_handle_idle chatwin.barejid chatwin.state :: calls)

/-- The function `prof_handle_idle`: the chat-state calls it makes. -/
def prof_handle_idle (i : HandleIdleInputs) : Option (List Call) :=
  if i.status = .JABBER_CONNECTED then
    prof_handle_idle_loop i.wins_get_chat i.recipients
  else
    some []

/-- Everything `prof_handle_activity` reads from its collaborators. -/
structure HandleActivityInputs where
  /-- The result of `ui_current_win_type()`. -/
  win_type : win_type_t
  /-- The result of `jabber_get_connection_status()`. -/
  status : jabber_conn_status_t
  /-- The result of `wins_get_current_chat()`; `none` is `NULL`. -/
  wins_get_current_chat : Option ProfChatWin
  deriving DecidableEq, Repr

/-- The function `prof_handle_activity`: the chat-state calls it makes; `none` when
`wins_get_current_chat` returns `NULL`, which the source dereferences
unchecked. -/
def prof_handle_activity (i : HandleActivityInputs) : Option (List Call) :=
  if i.status = .JABBER_CONNECTED ∧ i.win_type = .WIN_CHAT then
    match i.wins_get_current_chat with
    | none => none
    | some chatwin => some [.chat_state_handle_typing chatwin.barejid chatwin.state]
  else
    some []

/-- The chat-state calls among recorded calls. -/
def Call.isChatState : Call → Bool
  | .chat_state_handle_idle _ _ => true
  | .chat_state_handle_typing _ _ => true
  | _ => false

/-! ## The main loop -/

/-- What the build fixes: whether `PROF_HAVE_LIBOTR` is defined (it comes from the
generated header `prof_config.h`) and the value of the macro `INP_WIN_MAX`, the
size of the input buffer `inp` (it comes from a header of the user interface).
Neither header is part of the source at hand. -/
structure BuildConfig where
  /-- Whether `PROF_HAVE_LIBOTR` is defined. -/
  PROF_HAVE_LIBOTR : Bool
  /-- The value of `INP_WIN_MAX`. -/
  INP_WIN_MAX : Nat

/-- The call `snprintf(inp, size, "%s %s", a, b)`: the contents of the buffer
afterwards, which hold at most `size - 1` characters. -/
def snprintf_s_s (size : Nat) (a b : CStr) : CStr :=
  (a ++ [' '] ++ b).take (size - 1)

/-- What one iteration of the inner loop of `prof_run` reads from its
collaborators. -/
structure TickInput where
  /-- The result of `jabber_get_connection_status()`. -/
  conn_status : jabber_conn_status_t
  /-- What `_handle_idle_time` reads, should it be invoked. -/
  idle_inputs : IdleInputs
  /-- The result of `ui_get_char(inp, &size)`: `none` when it returns `TRUE` (no
  complete line yet), `some line` when it returns `FALSE` with the buffer `inp`
  holding `line`. -/
  line : Option CStr
  /-- How the dispatch collaborators answer, should a line be routed after this
  iteration. -/
  cmd : CommandCollaborators

/-- The body of the inner loop `while(read_input)` of `prof_run`: the new value of
the flag `idle` and the calls made, in program order. -/
def inner_loop_body (cfg : BuildConfig) (idle : Bool) (t : TickInput) : Bool × List Call :=
  let conn_status := t.conn_status
  let r : Bool × List Call :=
    if conn_status = .JABBER_CONNECTED then
      let h := _handle_idle_time idle t.idle_inputs
      (h.1, .handle_idle_time :: h.2)
    else
      (idle, [])
  (r.1,
    [.jabber_get_connection_status] ++ r.2 ++ [.ui_get_char] ++ [.plugins_run_timed]
      ++ (if cfg.PROF_HAVE_LIBOTR then [.otr_poll] else [])
      ++ [.notify_remind, .jabber_process_events, .ui_update])

/-- The record of one iteration of the inner loop: the calls of its body and, when
the iteration read a complete line, the outcome of routing that line with
`prof_process_input` right after the inner loop has ended. -/
structure TickRecord where
  /-- The calls of the body of the iteration. -/
  body : List Call
  /-- The outcome of `cmd_result = prof_process_input(inp)`, if a line was read. -/
  routed : Option InputOutcome
  deriving DecidableEq, Repr

/-- All calls of a recorded iteration, in program order. -/
def TickRecord.calls (r : TickRecord) : List Call :=
  r.body ++ (match r.routed with | none => [] | some o => o.calls)

/-- What the two nested loops of `prof_run` leave behind. -/
structure LoopOutcome where
  /-- The iterations of the inner loop that were executed, in order. -/
  records : List TickRecord
  /-- Whether the outer loop has ended (`cmd_result` is `FALSE`); `false` when the
  supplied iterations ran out first. -/
  exited : Bool
  /-- The value of the flag `idle` afterwards. -/
  idle : Bool
  deriving DecidableEq, Repr

/-- The nested loops `while(cmd_result == TRUE) { ... while(read_input) { ... } ... }`
of `prof_run`, run on the supplied iterations.  An iteration that reads no line
is followed by the next iteration of the inner loop; one that reads a line ends
the inner loop, the line is routed, and the outer loop goes on to the next
iteration exactly when the result is `TRUE`. -/
def main_loop (cfg : BuildConfig) (idle : Bool) : List TickInput → LoopOutcome
  | [] => { records := [], exited := false, idle := idle }
  | t :: rest =>
    let b := inner_loop_body cfg idle t
    match t.line with
    | none =>
      let r := main_loop cfg b.1 rest
      { r with records := { body := b.2, routed := none } :: r.records }
    | some inp =>
      let cmd_result := prof_process_input t.cmd inp
      if cmd_result.result = true then
        let r := main_loop cfg b.1 rest
        { r with records := { body := b.2, routed := some cmd_result } :: r.records }
      else
        { records := [{ body := b.2, routed := some cmd_result }], exited := true, idle := b.1 }

/-- The arguments of `prof_run` and everything it reads from its collaborators. -/
structure RunInputs where
  /-- The argument `disable_tls`. -/
  disable_tls : Int
  /-- The argument `log_level`. -/
  log_level : CStr
  /-- The argument `account_name`; `none` is `NULL`. -/
  account_name : Option CStr
  /-- The result of `prefs_get_string(PREF_CONNECT_ACCOUNT)`; `none` is `NULL`. -/
  pref_connect_account : Option CStr
  /-- How the dispatch collaborators answer for the line routed at start-up. -/
  startup_cmd : CommandCollaborators
  /-- What the iterations of the inner loop read. -/
  ticks : List TickInput

/-- What `prof_run` leaves behind. -/
structure RunOutcome where
  /-- The outcome of the call of `prof_process_input` made before the loop, if
  any. -/
  startup_routed : Option InputOutcome
  /-- The calls made before the loop, in program order. -/
  startup_calls : List Call
  /-- The outcome of the nested loops. -/
  loop : LoopOutcome
  deriving DecidableEq, Repr

/-- The function `prof_run`.  The flag `idle` starts `FALSE`. -/
def prof_run (cfg : BuildConfig) (i : RunInputs) : RunOutcome :=
  let pref_connect_account := i.pref_connect_account
  let startup_routed : Option InputOutcome :=
    match i.account_name with
    | some account_name =>
      some (prof_process_input i.startup_cmd
        (snprintf_s_s cfg.INP_WIN_MAX "/connect".toList account_name))
    | none =>
      match pref_connect_account with
      | some account =>
        some (prof_process_input i.startup_cmd
          (snprintf_s_s cfg.INP_WIN_MAX "/connect".toList account))
      | none => none
  { startup_routed := startup_routed
    startup_calls :=
      [.init i.disable_tls i.log_level, .plugins_on_start]
        ++ (match startup_routed with | none => [] | some o => o.calls)
        ++ [.ui_update, .log_info "Starting main event loop", .jabber_get_connection_status]
    loop := main_loop cfg false i.ticks }

/-- The outcomes of the lines routed by recorded iterations, in order. -/
def routedOutcomes (rs : List TickRecord) : List InputOutcome :=
  rs.filterMap (fun r => r.routed)

/-- The outcome of routing the line read by an iteration, if it reads one. -/
def TickInput.outcome (t : TickInput) : Option InputOutcome :=
  t.line.map (fun inp => prof_process_input t.cmd inp)

/-- The iteration reads a line whose routing returns `FALSE` (terminate). -/
def TickInput.terminates (t : TickInput) : Prop :=
  ∃ inp, t.line = some inp ∧ (prof_process_input t.cmd inp).result = false

/-- All calls made by the nested loops, in program order. -/
def LoopOutcome.calls (o : LoopOutcome) : List Call :=
  (o.records.map TickRecord.calls).flatten

/-- The part of an iteration that belongs to the idle coordinator: the invocation
of `_handle_idle_time` and its calls when the status is connected, nothing
otherwise. -/
def coordinatorCalls (idle : Bool) (t : TickInput) : List Call :=
  if t.conn_status = .JABBER_CONNECTED then
    .handle_idle_time :: (_handle_idle_time idle t.idle_inputs).2
  else []

end Profanity

namespace Profanity

/-! ## Threshold arithmetic in the range where the product fits a `gint` -/

theorem wrap_gint_of_fits (x : Int) (h0 : -2147483648 ≤ x) (h1 : x < 2147483648) :
    wrap_gint x = x := by
  unfold wrap_gint
  have : (x + 2 ^ 31) % 2 ^ 32 = x + 2 ^ 31 := by
    apply Int.emod_eq_of_lt <;> norm_num <;> omega
  rw [this]; ring

theorem gint_to_ulong_of_nonneg (x : Int) (h0 : 0 ≤ x) (h1 : x < 2147483648) :
    gint_to_ulong x = x.toNat := by
  unfold gint_to_ulong
  have : x % 2 ^ 64 = x := by
    apply Int.emod_eq_of_lt h0
    norm_num; omega
  rw [this]

theorem gint_to_ulong_prefs_time (t : Int) (h0 : 0 ≤ t) (h1 : t ≤ 35791) :
    gint_to_ulong (prefs_time t) = (t * 60000).toNat := by
  unfold prefs_time
  rw [wrap_gint_of_fits _ (by omega) (by omega), gint_to_ulong_of_nonneg _ (by omega) (by omega)]

theorem ge_prefs_time_iff (i : IdleInputs) (h : thresholdFits i) :
    i.idle_ms ≥ gint_to_ulong (prefs_time i.autoaway_time) ↔ reachedThreshold i := by
  obtain ⟨h0, h1⟩ := h
  rw [gint_to_ulong_prefs_time _ h0 h1]
  unfold reachedThreshold
  omega

theorem lt_prefs_time_iff (i : IdleInputs) (h : thresholdFits i) :
    i.idle_ms < gint_to_ulong (prefs_time i.autoaway_time) ↔ ¬ reachedThreshold i := by
  rw [← ge_prefs_time_iff i h]
  omega

/-- From `Armed`, written out with the exact comparison. -/
theorem handle_idle_time_armed (i : IdleInputs) (h : thresholdFits i) :
    _handle_idle_time false i =
      if presenceAvailable i.current_presence ∧ reachedThreshold i then
        if i.autoaway_mode = "away" then
          (true, [.presence_update .RESOURCE_AWAY i.autoaway_message 0, .ui_auto_away])
        else if i.autoaway_mode = "idle" then
          (true, [.presence_update .RESOURCE_ONLINE i.autoaway_message (i.idle_ms / 1000)])
        else (true, [])
      else (false, []) := by
  have hge := ge_prefs_time_iff i h
  unfold _handle_idle_time presenceAvailable
  by_cases hp : i.current_presence = .RESOURCE_ONLINE ∨ i.current_presence = .RESOURCE_CHAT
  · by_cases hr : reachedThreshold i
    · have := hge.mpr hr
      simp [hp, hr, this]
    · have : ¬ (i.idle_ms ≥ gint_to_ulong (prefs_time i.autoaway_time)) := fun c => hr (hge.mp c)
      simp only [ge_iff_le] at this
      simp [hp, hr, this]
  · simp [hp]

/-- From `Engaged`, written out with the exact comparison. -/
theorem handle_idle_time_engaged (i : IdleInputs) (h : thresholdFits i) :
    _handle_idle_time true i =
      if reachedThreshold i then (true, [])
      else if i.autoaway_check then
        if i.autoaway_mode = "away" then
          (false, [.presence_update .RESOURCE_ONLINE none 0, .ui_end_auto_away])
        else if i.autoaway_mode = "idle" then
          (false, [.presence_update .RESOURCE_ONLINE none 0,
                   .ui_titlebar_presence .CONTACT_ONLINE])
        else (false, [])
      else (false, []) := by
  have hlt := lt_prefs_time_iff i h
  unfold _handle_idle_time
  by_cases hr : reachedThreshold i
  · have : ¬ (i.idle_ms < gint_to_ulong (prefs_time i.autoaway_time)) := fun c => hlt.mp c hr
    simp [hr, this]
  · have := hlt.mpr hr
    simp [hr, this]

/-! ## One invocation of the coordinator -/

/-- C1: for mode away or idle and a threshold whose product with 60000 fits a
`gint`, one invocation from `Armed` (`idle = false`) ends `Engaged` exactly when
the presence is available and the idle time has reached the threshold; below
the threshold the state stays `Armed` and no call is made at all. -/
theorem armed_to_engaged_iff (i : IdleInputs)
    (hmode : i.autoaway_mode = "away" ∨ i.autoaway_mode = "idle")
    (hfit : thresholdFits i) :
    ((_handle_idle_time false i).1 = true ↔
        presenceAvailable i.current_presence ∧ reachedThreshold i) ∧
    (¬ reachedThreshold i → _handle_idle_time false i = (false, [])) := by
  rw [handle_idle_time_armed i hfit]
  refine ⟨?_, ?_⟩
  · by_cases hc : presenceAvailable i.current_presence ∧ reachedThreshold i
    · rcases hmode with hm | hm
      · simp [hc, hm]
      · have : i.autoaway_mode ≠ "away" := by rw [hm]; decide
        simp [hc, hm]
    · simp [hc]
  · intro hr
    have : ¬ (presenceAvailable i.current_presence ∧ reachedThreshold i) := fun c => hr c.2
    simp [this]

/-- Witness for C1: away mode, ten minutes, online, 600001 ms of idle time. -/
theorem armed_to_engaged_iff_witness :
    ((_handle_idle_time false ⟨10, 600001, "away", .RESOURCE_ONLINE, some "Gone", true⟩).1 = true ↔
        presenceAvailable resource_presence_t.RESOURCE_ONLINE ∧
          reachedThreshold ⟨10, 600001, "away", .RESOURCE_ONLINE, some "Gone", true⟩) ∧
    (¬ reachedThreshold ⟨10, 600001, "away", .RESOURCE_ONLINE, some "Gone", true⟩ →
      _handle_idle_time false ⟨10, 600001, "away", .RESOURCE_ONLINE, some "Gone", true⟩
        = (false, [])) :=
  armed_to_engaged_iff ⟨10, 600001, "away", .RESOURCE_ONLINE, some "Gone", true⟩
    (by decide) (by decide)

/-! ## Consecutive invocations -/

theorem handle_idle_time_engaged_stays (i : IdleInputs) (hfit : thresholdFits i)
    (hr : reachedThreshold i) : _handle_idle_time true i = (true, []) := by
  rw [handle_idle_time_engaged i hfit]; simp [hr]

theorem handle_idle_time_engaged_resets (i : IdleInputs) (hfit : thresholdFits i)
    (hr : ¬ reachedThreshold i) : (_handle_idle_time true i).1 = false := by
  rw [handle_idle_time_engaged i hfit]
  simp only [hr, if_false]
  split_ifs <;> rfl

/-- C3, as stated, fails: with mode `"off"`, a ten minute threshold, presence online
and 600001 ms of idle time, an invocation from `Armed` ends `Engaged`. -/
theorem mode_off_state_changes :
    _handle_idle_time false ⟨10, 600001, "off", .RESOURCE_ONLINE, none, false⟩ = (true, []) ∧
    (_handle_idle_time false ⟨10, 600001, "off", .RESOURCE_ONLINE, none, false⟩).1 ≠ false := by
  decide

/-- C3, amended: when the mode is neither `"away"` nor `"idle"`, an invocation makes
no call at all (no presence update, no notification), for every state, idle
time, threshold, presence and check-on-return value; the state still follows the
threshold: for a threshold that fits, the invocation ends `Engaged` exactly when
it started `Armed` with an available presence and the idle time has reached the
threshold, or started `Engaged` and the idle time has reached the threshold. -/
theorem mode_off_emits_nothing (idle : Bool) (i : IdleInputs)
    (haway : i.autoaway_mode ≠ "away") (hidle : i.autoaway_mode ≠ "idle") :
    (_handle_idle_time idle i).2 = [] ∧
    (thresholdFits i →
      ((_handle_idle_time idle i).1 = true ↔
        reachedThreshold i ∧ (idle = true ∨ presenceAvailable i.current_presence))) := by
  refine ⟨?_, ?_⟩
  · unfold _handle_idle_time
    cases idle <;> simp only [haway, hidle] <;> split_ifs <;> first | rfl | contradiction
  · intro hfit
    cases idle
    · rw [handle_idle_time_armed i hfit]
      by_cases hc : presenceAvailable i.current_presence ∧ reachedThreshold i
      · simp [hc, haway, hidle]
      · simp only [hc, if_false]
        constructor
        · intro h; cases h
        · rintro ⟨h1, h2 | h2⟩
          · cases h2
          · exact absurd ⟨h2, h1⟩ hc
    · rw [handle_idle_time_engaged i hfit]
      by_cases hr : reachedThreshold i
      · simp [hr]
      · simp only [hr, if_false, haway, hidle]
        constructor
        · intro h; split_ifs at h
        · rintro ⟨h1, _⟩; exact h1.elim

/-- Witness for C3 (amended): mode `"off"`, from `Armed`, past the threshold. -/
theorem mode_off_emits_nothing_witness :
    (_handle_idle_time false ⟨10, 600001, "off", .RESOURCE_ONLINE, none, false⟩).2 = [] :=
  (mode_off_emits_nothing false ⟨10, 600001, "off", .RESOURCE_ONLINE, none, false⟩
    (by decide) (by decide)).1

/-- C4, as stated, fails: from `Engaged` with presence away (not available), mode
`"away"`, check-on-return set and an idle time of 100 ms below a ten minute
threshold, the invocation resets the state and sends a presence update. -/
theorem unavailable_presence_engaged_acts :
    _handle_idle_time true ⟨10, 100, "away", .RESOURCE_AWAY, some "Gone", true⟩
      = (false, [.presence_update .RESOURCE_ONLINE none 0, .ui_end_auto_away]) := by
  decide

/-- C4, amended: from `Armed`, an invocation with a presence that is not available
leaves the state `Armed` and makes no call, for every idle time, threshold, mode
and check-on-return value; from `Engaged` the presence is not consulted: the
outcome is the same for every presence. -/
theorem unavailable_presence_armed_noop (i : IdleInputs)
    (hpres : ¬ presenceAvailable i.current_presence) :
    _handle_idle_time false i = (false, []) ∧
    (∀ p : resource_presence_t,
      _handle_idle_time true { i with current_presence := p } = _handle_idle_time true i) := by
  refine ⟨?_, fun p => rfl⟩
  unfold presenceAvailable at hpres
  unfold _handle_idle_time
  simp [hpres]

/-- Witness for C4 (amended): presence away, from `Armed`, past the threshold. -/
theorem unavailable_presence_armed_noop_witness :
    ¬ presenceAvailable resource_presence_t.RESOURCE_AWAY ∧
    _handle_idle_time false ⟨10, 600001, "away", .RESOURCE_AWAY, some "Gone", true⟩
      = (false, []) :=
  ⟨by decide,
    (unavailable_presence_armed_noop ⟨10, 600001, "away", .RESOURCE_AWAY, some "Gone", true⟩
      (by decide)).1⟩

/-! ## Entering and leaving auto-away -/

/-- C7: return from auto-away.  For a threshold that fits, one invocation from
`Engaged` ends `Armed` exactly when the idle time is below the threshold.  When
it does: without check-on-return no call is made; with check-on-return and mode
`"away"` the calls are exactly `presence_update(RESOURCE_ONLINE, NULL, 0)` then
`ui_end_auto_away()`; with check-on-return and mode `"idle"` they are exactly
`presence_update(RESOURCE_ONLINE, NULL, 0)` then
`ui_titlebar_presence(CONTACT_ONLINE)`.  When the idle time has reached the
threshold the state stays `Engaged` and no call is made. -/
theorem return_from_auto_away (i : IdleInputs) (hfit : thresholdFits i) :
    ((_handle_idle_time true i).1 = false ↔ ¬ reachedThreshold i) ∧
    (¬ reachedThreshold i →
      (i.autoaway_check = false → _handle_idle_time true i = (false, [])) ∧
      (i.autoaway_check = true → i.autoaway_mode = "away" →
        _handle_idle_time true i =
          (false, [.presence_update .RESOURCE_ONLINE none 0, .ui_end_auto_away])) ∧
      (i.autoaway_check = true → i.autoaway_mode = "idle" →
        _handle_idle_time true i =
          (false, [.presence_update .RESOURCE_ONLINE none 0,
                   .ui_titlebar_presence .CONTACT_ONLINE]))) ∧
    (reachedThreshold i → _handle_idle_time true i = (true, [])) := by
  refine ⟨⟨?_, handle_idle_time_engaged_resets i hfit⟩, ?_, handle_idle_time_engaged_stays i hfit⟩
  · intro h hr
    rw [handle_idle_time_engaged_stays i hfit hr] at h
    cases h
  · intro hr
    rw [handle_idle_time_engaged i hfit]
    refine ⟨fun hc => ?_, fun hc hm => ?_, fun hc hm => ?_⟩
    · simp [hr, hc]
    · simp [hr, hc, hm]
    · have : i.autoaway_mode ≠ "away" := by rw [hm]; decide
      simp [hr, hc, hm]

/-- Witness for C7: idle mode, five minutes, back after 100 ms, with
check-on-return. -/
theorem return_from_auto_away_witness :
    thresholdFits ⟨5, 100, "idle", .RESOURCE_ONLINE, none, true⟩ ∧
    _handle_idle_time true ⟨5, 100, "idle", .RESOURCE_ONLINE, none, true⟩ =
      (false, [.presence_update .RESOURCE_ONLINE none 0,
               .ui_titlebar_presence .CONTACT_ONLINE]) :=
  ⟨by decide,
    ((return_from_auto_away ⟨5, 100, "idle", .RESOURCE_ONLINE, none, true⟩
      (by decide)).2.1 (by decide)).2.2 rfl rfl⟩

/-! ## The command router -/

theorem g_strstrip_of_isBlank (raw : CStr) (h : isBlank raw) : g_strstrip raw = [] := by
  have h1 : g_strchug raw = [] := by
    unfold g_strchug
    rw [List.dropWhile_eq_nil_iff]
    exact h
  unfold g_strstrip
  rw [h1]
  rfl

theorem strtok_space_of_slash (rest : CStr) :
    strtok ('/' :: rest) [' '] = some (firstSpaceToken ('/' :: rest)) := by
  have hd : ([' '] : CStr).contains '/' = false := by decide
  have hf : (fun c : Char => !([' '] : CStr).contains c) = (fun c : Char => !decide (c = ' ')) := by
    funext c
    simp
  unfold strtok firstSpaceToken firstTokenBy
  rw [List.dropWhile_cons_of_neg (by rw [hd]; decide)]
  simp only [List.isEmpty_cons, Bool.false_eq_true, if_false]
  rw [hf]

theorem prof_process_input_command (c : CommandCollaborators) (raw rest : CStr)
    (h : g_strstrip raw = '/' :: rest) :
    prof_process_input c raw =
      { result := c.cmd_execute (some (firstSpaceToken (g_strstrip raw))) (g_strstrip raw)
        inp := g_strstrip raw
        calls := [.log_debug raw, .cmd_history_append (g_strstrip raw),
                  .cmd_execute (some (firstSpaceToken (g_strstrip raw))) (g_strstrip raw),
                  .ui_input_clear, .roster_reset_search_attempts] } := by
  unfold prof_process_input
  rw [h]
  simp [strlen, strtok_space_of_slash]

/-- C8, as stated, fails: the stripped line `/msg<TAB>bob hi` starts with `/`, its
first whitespace-delimited token is `/msg`, but the command name passed to
`cmd_execute` is `/msg<TAB>bob`, because only the space character delimits. -/
theorem command_name_not_whitespace_token :
    (g_strstrip "/msg\tbob hi".toList).head? = some '/' ∧
    firstWhitespaceToken (g_strstrip "/msg\tbob hi".toList) = "/msg".toList ∧
    (prof_process_input ⟨fun _ _ => true, fun _ => true⟩ "/msg\tbob hi".toList).calls.filter
        Call.isDispatch
      = [.cmd_execute (some "/msg\tbob".toList) "/msg\tbob hi".toList] ∧
    "/msg\tbob".toList ≠ "/msg".toList := by
  decide

/-- C8, amended: for every line whose stripped form starts with `/`,
`prof_process_input` calls `cmd_execute` exactly once, with the command name
equal to the first token of the stripped line delimited by the space character
only and with the entire stripped line, never calls `cmd_execute_default`, and
returns the result of `cmd_execute` unchanged; the calls are, in order, the debug
log, the history append, `cmd_execute`, the input clear and the roster search
reset.  The line `/quit` is routed with command name `/quit` and full line
`/quit`. -/
theorem command_routing (c : CommandCollaborators) (raw : CStr)
    (h : (g_strstrip raw).head? = some '/') :
    prof_process_input c raw =
      { result := c.cmd_execute (some (firstSpaceToken (g_strstrip raw))) (g_strstrip raw)
        inp := g_strstrip raw
        calls := [.log_debug raw, .cmd_history_append (g_strstrip raw),
                  .cmd_execute (some (firstSpaceToken (g_strstrip raw))) (g_strstrip raw),
                  .ui_input_clear, .roster_reset_search_attempts] } ∧
    prof_process_input c "/quit".toList =
      { result := c.cmd_execute (some "/quit".toList) "/quit".toList
        inp := "/quit".toList
        calls := [.log_debug "/quit".toList, .cmd_history_append "/quit".toList,
                  .cmd_execute (some "/quit".toList) "/quit".toList,
                  .ui_input_clear, .roster_reset_search_attempts] } := by
  refine ⟨?_, ?_⟩
  · cases hs : g_strstrip raw with
    | nil => rw [hs] at h; cases h
    | cons a rest =>
      rw [hs] at h
      simp only [List.head?_cons, Option.some.injEq] at h
      subst h
      rw [← hs]
      exact prof_process_input_command c raw rest hs
  · exact prof_process_input_command c "/quit".toList "quit".toList (by decide)

/-- Witness for C8 (amended): the line `  /msg bob hi ` with surrounding blanks. -/
theorem command_routing_witness :
    (prof_process_input ⟨fun _ _ => false, fun _ => true⟩ "  /msg bob hi ".toList) =
      { result := false
        inp := "/msg bob hi".toList
        calls := [.log_debug "  /msg bob hi ".toList, .cmd_history_append "/msg bob hi".toList,
                  .cmd_execute (some "/msg".toList) "/msg bob hi".toList,
                  .ui_input_clear, .roster_reset_search_attempts] } :=
  (command_routing ⟨fun _ _ => false, fun _ => true⟩ "  /msg bob hi ".toList (by decide)).1

/-- C9: for every line that is empty or consists only of whitespace,
`prof_process_input` returns `TRUE` (continue) and its only calls are the debug
log, the input clear and the roster search reset: no history append and no call
of `cmd_execute` or `cmd_execute_default`. -/
theorem empty_input (c : CommandCollaborators) (raw : CStr) (h : isBlank raw) :
    prof_process_input c raw =
      { result := true
        inp := []
        calls := [.log_debug raw, .ui_input_clear, .roster_reset_search_attempts] } := by
  unfold prof_process_input
  rw [g_strstrip_of_isBlank raw h]
  rfl

/-- Witness for C9: a line of a space, a tab and a space. -/
theorem empty_input_witness :
    isBlank " \t ".toList ∧
    prof_process_input ⟨fun _ _ => false, fun _ => false⟩ " \t ".toList =
      { result := true
        inp := []
        calls := [.log_debug " \t ".toList, .ui_input_clear, .roster_reset_search_attempts] } :=
  ⟨by decide, empty_input ⟨fun _ _ => false, fun _ => false⟩ " \t ".toList (by decide)⟩

/-- C10: for every line whose stripped form is non-empty and does not start with `/`,
`prof_process_input` calls `cmd_execute_default` exactly once with the entire
stripped line, makes no `cmd_execute` call (no command name is extracted), and
returns the result of `cmd_execute_default` unchanged; the calls are, in order,
the debug log, the history append, `cmd_execute_default`, the input clear and the
roster search reset.  The line `hello` is routed to the default handler with
full line `hello`. -/
theorem plain_message_routing (c : CommandCollaborators) (raw : CStr)
    (hne : g_strstrip raw ≠ []) (hslash : (g_strstrip raw).head? ≠ some '/') :
    prof_process_input c raw =
      { result := c.cmd_execute_default (g_strstrip raw)
        inp := g_strstrip raw
        calls := [.log_debug raw, .cmd_history_append (g_strstrip raw),
                  .cmd_execute_default (g_strstrip raw),
                  .ui_input_clear, .roster_reset_search_attempts] } ∧
    prof_process_input c "hello".toList =
      { result := c.cmd_execute_default "hello".toList
        inp := "hello".toList
        calls := [.log_debug "hello".toList, .cmd_history_append "hello".toList,
                  .cmd_execute_default "hello".toList,
                  .ui_input_clear, .roster_reset_search_attempts] } := by
  have key : ∀ r : CStr, g_strstrip r ≠ [] → (g_strstrip r).head? ≠ some '/' →
      prof_process_input c r =
        { result := c.cmd_execute_default (g_strstrip r)
          inp := g_strstrip r
          calls := [.log_debug r, .cmd_history_append (g_strstrip r),
                    .cmd_execute_default (g_strstrip r),
                    .ui_input_clear, .roster_reset_search_attempts] } := by
    intro r h1 h2
    have hlen : 0 < (g_strstrip r).length := List.length_pos.mpr h1
    have hlen0 : (g_strstrip r).length ≠ 0 := by omega
    unfold prof_process_input
    simp [strlen, hlen, hlen0, h2]
  exact ⟨key raw hne hslash, key "hello".toList (by decide) (by decide)⟩

/-- Witness for C10: the line `hello there` followed by a line feed. -/
theorem plain_message_routing_witness :
    prof_process_input ⟨fun _ _ => false, fun _ => true⟩ "hello there\n".toList =
      { result := true
        inp := "hello there".toList
        calls := [.log_debug "hello there\n".toList, .cmd_history_append "hello there".toList,
                  .cmd_execute_default "hello there".toList,
                  .ui_input_clear, .roster_reset_search_attempts] } :=
  (plain_message_routing ⟨fun _ _ => false, fun _ => true⟩ "hello there\n".toList
    (by decide) (by decide)).1

/-! ## Side effects of a routed line and the shape of the command name -/

theorem prof_process_input_empty (c : CommandCollaborators) (raw : CStr)
    (h : g_strstrip raw = []) :
    prof_process_input c raw =
      { result := true
        inp := []
        calls := [.log_debug raw, .ui_input_clear, .roster_reset_search_attempts] } := by
  unfold prof_process_input
  rw [h]
  rfl

theorem prof_process_input_default (c : CommandCollaborators) (raw : CStr)
    (h1 : g_strstrip raw ≠ []) (h2 : (g_strstrip raw).head? ≠ some '/') :
    prof_process_input c raw =
      { result := c.cmd_execute_default (g_strstrip raw)
        inp := g_strstrip raw
        calls := [.log_debug raw, .cmd_history_append (g_strstrip raw),
                  .cmd_execute_default (g_strstrip raw),
                  .ui_input_clear, .roster_reset_search_attempts] } := by
  have hlen : 0 < (g_strstrip raw).length := List.length_pos.mpr h1
  have hlen0 : (g_strstrip raw).length ≠ 0 := by omega
  unfold prof_process_input
  simp [strlen, hlen, hlen0, h2]

theorem prof_process_input_nonempty_calls (c : CommandCollaborators) (raw : CStr)
    (h : g_strstrip raw ≠ []) :
    ∃ d : Call, d.isDispatch = true ∧
      (prof_process_input c raw).calls =
        [.log_debug raw, .cmd_history_append (g_strstrip raw), d,
         .ui_input_clear, .roster_reset_search_attempts] := by
  by_cases hs : (g_strstrip raw).head? = some '/'
  · cases ht : g_strstrip raw with
    | nil => exact absurd ht h
    | cons a rest =>
      rw [ht] at hs
      simp only [List.head?_cons, Option.some.injEq] at hs
      subst hs
      rw [← ht, prof_process_input_command c raw rest ht]
      exact ⟨.cmd_execute _ _, rfl, rfl⟩
  · rw [prof_process_input_default c raw h hs]
    exact ⟨.cmd_execute_default _, rfl, rfl⟩

/-- C11: per-line side effects.  For every submitted line, `prof_process_input`
appends the stripped line to the command history exactly once when it is
non-empty and not at all when it is empty, the append comes right before the
one dispatch call, and the calls always end with exactly one `ui_input_clear()`
followed by exactly one `roster_reset_search_attempts()`, after any dispatch. -/
theorem per_line_side_effects (c : CommandCollaborators) (raw : CStr) :
    (g_strstrip raw = [] →
      (prof_process_input c raw).calls =
        [.log_debug raw, .ui_input_clear, .roster_reset_search_attempts]) ∧
    (g_strstrip raw ≠ [] → ∃ d : Call, d.isDispatch = true ∧
      (prof_process_input c raw).calls =
        [.log_debug raw, .cmd_history_append (g_strstrip raw), d,
         .ui_input_clear, .roster_reset_search_attempts]) ∧
    (prof_process_input c raw).calls.filter Call.isHistoryAppend =
      (if g_strstrip raw = [] then [] else [.cmd_history_append (g_strstrip raw)]) ∧
    (prof_process_input c raw).calls.count .ui_input_clear = 1 ∧
    (prof_process_input c raw).calls.count .roster_reset_search_attempts = 1 := by
  by_cases h : g_strstrip raw = []
  · have e := prof_process_input_empty c raw h
    refine ⟨fun _ => by rw [e], fun h' => absurd h h', ?_, ?_, ?_⟩
    · rw [e, if_pos h]; rfl
    · rw [e]; simp
    · rw [e]; simp
  · obtain ⟨d, hd, e⟩ := prof_process_input_nonempty_calls c raw h
    refine ⟨fun h' => absurd h' h, fun _ => ⟨d, hd, e⟩, ?_, ?_, ?_⟩
    · rw [e, if_neg h]
      cases d <;> simp [Call.isDispatch] at hd <;> simp [Call.isHistoryAppend]
    · rw [e]
      cases d <;> simp [Call.isDispatch] at hd <;> simp
    · rw [e]
      cases d <;> simp [Call.isDispatch] at hd <;> simp

/-- C19: for every line whose stripped form starts with `/`, the command name passed
to `cmd_execute` is defined (`strtok` does not return `NULL`), is non-empty,
begins with `/`, contains no space character and is a prefix of the stripped
line. -/
theorem command_name_well_formed (c : CommandCollaborators) (raw : CStr)
    (h : (g_strstrip raw).head? = some '/') :
    ∃ command : CStr,
      strtok (g_strstrip raw) [' '] = some command ∧
      (prof_process_input c raw).calls.filter Call.isDispatch =
        [.cmd_execute (some command) (g_strstrip raw)] ∧
      command ≠ [] ∧ command.head? = some '/' ∧ ' ' ∉ command ∧
      command <+: g_strstrip raw := by
  cases ht : g_strstrip raw with
  | nil => rw [ht] at h; cases h
  | cons a rest =>
    rw [ht] at h
    simp only [List.head?_cons, Option.some.injEq] at h
    subst h
    have hcmd : firstSpaceToken ('/' :: rest) = '/' :: firstSpaceToken rest := by
      unfold firstSpaceToken firstTokenBy
      rw [List.takeWhile_cons_of_pos (by decide)]
    refine ⟨firstSpaceToken ('/' :: rest), strtok_space_of_slash rest, ?_, ?_, ?_, ?_, ?_⟩
    · rw [prof_process_input_command c raw rest ht, ht]
      rfl
    · rw [hcmd]; exact List.cons_ne_nil _ _
    · rw [hcmd]; rfl
    · intro hmem
      unfold firstSpaceToken firstTokenBy at hmem
      have := List.mem_takeWhile_imp hmem
      simp at this
    · unfold firstSpaceToken firstTokenBy
      exact List.takeWhile_prefix _

/-- Witness for C19: the line `/msg bob hi`. -/
theorem command_name_well_formed_witness :
    ∃ command : CStr,
      strtok (g_strstrip "/msg bob hi".toList) [' '] = some command ∧
      (prof_process_input ⟨fun _ _ => true, fun _ => true⟩ "/msg bob hi".toList).calls.filter
          Call.isDispatch =
        [.cmd_execute (some command) (g_strstrip "/msg bob hi".toList)] ∧
      command ≠ [] ∧ command.head? = some '/' ∧ ' ' ∉ command ∧
      command <+: g_strstrip "/msg bob hi".toList :=
  command_name_well_formed ⟨fun _ _ => true, fun _ => true⟩ "/msg bob hi".toList (by decide)

/-! ## Threshold arithmetic outside the range, and the calls of one invocation -/

/-- C17 fails on the code.  A threshold of 35792 minutes with an idle time of
exactly 35792 * 60000 ms, and a threshold of -1 minute with an idle time of 0 ms:
in both the idle time has reached the exact threshold, yet from `Armed` with
presence online and mode away the invocation does nothing, because the product
is stored in a `gint` and then converted to `unsigned long` for the
comparison. -/
theorem threshold_comparison_wraps :
    reachedThreshold ⟨35792, 2147520000, "away", .RESOURCE_ONLINE, none, false⟩ ∧
    _handle_idle_time false ⟨35792, 2147520000, "away", .RESOURCE_ONLINE, none, false⟩
      = (false, []) ∧
    prefs_time 35792 = -2147447296 ∧
    reachedThreshold ⟨-1, 0, "away", .RESOURCE_ONLINE, none, false⟩ ∧
    _handle_idle_time false ⟨-1, 0, "away", .RESOURCE_ONLINE, none, false⟩ = (false, []) ∧
    gint_to_ulong (prefs_time (-1)) = 18446744073709491616 := by
  decide

theorem handle_idle_time_calls_cases (idle : Bool) (i : IdleInputs) :
    (_handle_idle_time idle i).2 = [] ∨
    (∃ p m n, (_handle_idle_time idle i).2 = [.presence_update p m n]) ∨
    (∃ p m n u, u.isUiNotification = true ∧
      (_handle_idle_time idle i).2 = [.presence_update p m n, u]) := by
  unfold _handle_idle_time
  by_cases h1 : i.current_presence = .RESOURCE_ONLINE ∨ i.current_presence = .RESOURCE_CHAT <;>
  by_cases h2 : i.idle_ms ≥ gint_to_ulong (prefs_time i.autoaway_time) <;>
  by_cases h3 : i.idle_ms < gint_to_ulong (prefs_time i.autoaway_time) <;>
  by_cases h4 : i.autoaway_mode = "away" <;>
  by_cases h5 : i.autoaway_mode = "idle" <;>
  cases h6 : i.autoaway_check <;>
  cases idle <;>
  simp [h1, h2, h3, h4, h5, h6, Call.isUiNotification]

/-- C18: every invocation of `_handle_idle_time` makes at most one presence update,
and makes a user-interface notification only if it also makes a presence
update. -/
theorem at_most_one_presence_update (idle : Bool) (i : IdleInputs) :
    countPresenceUpdates (_handle_idle_time idle i).2 ≤ 1 ∧
    ((∃ c ∈ (_handle_idle_time idle i).2, c.isUiNotification = true) →
      countPresenceUpdates (_handle_idle_time idle i).2 = 1) := by
  rcases handle_idle_time_calls_cases idle i with h | ⟨p, m, n, h⟩ | ⟨p, m, n, u, h⟩
  · rw [h]
    exact ⟨Nat.zero_le _, fun ⟨c, hc, _⟩ => absurd hc (List.not_mem_nil c)⟩
  · rw [h]
    exact ⟨le_refl _, fun _ => rfl⟩
  · rw [h.2]
    have hu : u.isPresenceUpdate = false := by
      cases u <;> simp [Call.isUiNotification] at h <;> rfl
    have : countPresenceUpdates [.presence_update p m n, u] = 1 := by
      unfold countPresenceUpdates
      rw [List.countP_cons, List.countP_cons, hu]
      rfl
    exact ⟨by omega, fun _ => this⟩

/-! ## The chat-state dispatcher -/

theorem prof_handle_idle_loop_of_open (wins_get_chat : CStr → Option ProfChatWin)
    (recipients : List CStr) (wins : List ProfChatWin)
    (h : recipients.map wins_get_chat = wins.map some) :
    prof_handle_idle_loop wins_get_chat recipients =
      some (wins.map (fun w => Call.chat_state_handle_idle w.barejid w.state)) := by
  induction recipients generalizing wins with
  | nil =>
    cases wins with
    | nil => rfl
    | cons w ws => cases h
  | cons r rs ih =>
    cases wins with
    | nil => cases h
    | cons w ws =>
      simp only [List.map_cons, List.cons.injEq] at h
      simp only [prof_handle_idle_loop, h.1, ih ws h.2, List.map_cons]

/-- C14: idle fan-out.  When the connection status is not connected,
`prof_handle_idle` makes no chat-state call.  When it is connected and every
listed recipient is an open chat conversation (`wins_get_chat` finds the
windows `wins`, one per recipient, in order), it makes exactly one
`chat_state_handle_idle` call per listed conversation, in list order, each with
the bare address and the chat state of that conversation's own window, and no
other call. -/
theorem idle_fan_out (i : HandleIdleInputs) (wins : List ProfChatWin)
    (hopen : i.recipients.map i.wins_get_chat = wins.map some) :
    (i.status ≠ .JABBER_CONNECTED → prof_handle_idle i = some []) ∧
    (i.status = .JABBER_CONNECTED →
      prof_handle_idle i =
        some (wins.map (fun w => Call.chat_state_handle_idle w.barejid w.state))) := by
  unfold prof_handle_idle
  refine ⟨fun h => by rw [if_neg h], fun h => ?_⟩
  rw [if_pos h]
  exact prof_handle_idle_loop_of_open i.wins_get_chat i.recipients wins hopen

/-- Witness for C14: two open conversations, connected. -/
theorem idle_fan_out_witness :
    prof_handle_idle
        ⟨.JABBER_CONNECTED, ["a@x".toList, "b@y".toList],
          fun j => if j = "a@x".toList then some ⟨"a@x".toList, .Composing⟩
                   else some ⟨"b@y".toList, .Active⟩⟩ =
      some [.chat_state_handle_idle "a@x".toList .Composing,
            .chat_state_handle_idle "b@y".toList .Active] :=
  (idle_fan_out
    ⟨.JABBER_CONNECTED, ["a@x".toList, "b@y".toList],
      fun j => if j = "a@x".toList then some ⟨"a@x".toList, .Composing⟩
               else some ⟨"b@y".toList, .Active⟩⟩
    [⟨"a@x".toList, .Composing⟩, ⟨"b@y".toList, .Active⟩] (by decide)).2 rfl

/-- C15: activity fan-out.  Provided the focused window, when it is a chat window,
is found by `wins_get_current_chat`, `prof_handle_activity` makes exactly one
call, `chat_state_handle_typing` with the bare address and chat state of the
focused conversation, when the status is connected and the focused window is a
chat window, and makes no call at all in every other case. -/
theorem activity_fan_out (i : HandleActivityInputs) (chatwin : ProfChatWin)
    (hfocus : i.win_type = .WIN_CHAT → i.wins_get_current_chat = some chatwin) :
    (i.status = .JABBER_CONNECTED ∧ i.win_type = .WIN_CHAT →
      prof_handle_activity i =
        some [.chat_state_handle_typing chatwin.barejid chatwin.state]) ∧
    (¬ (i.status = .JABBER_CONNECTED ∧ i.win_type = .WIN_CHAT) →
      prof_handle_activity i = some []) ∧
    ((∃ calls, prof_handle_activity i = some calls ∧ ∃ c ∈ calls, c.isChatState = true) ↔
      (i.status = .JABBER_CONNECTED ∧ i.win_type = .WIN_CHAT)) := by
  have h1 : i.status = .JABBER_CONNECTED ∧ i.win_type = .WIN_CHAT →
      prof_handle_activity i =
        some [.chat_state_handle_typing chatwin.barejid chatwin.state] := by
    intro h
    unfold prof_handle_activity
    rw [if_pos h, hfocus h.2]
  have h2 : ¬ (i.status = .JABBER_CONNECTED ∧ i.win_type = .WIN_CHAT) →
      prof_handle_activity i = some [] := by
    intro h
    unfold prof_handle_activity
    rw [if_neg h]
  refine ⟨h1, h2, ?_, ?_⟩
  · rintro ⟨calls, hc, c, hmem, _⟩
    by_contra hn
    rw [h2 hn] at hc
    cases hc
    exact absurd hmem (List.not_mem_nil c)
  · intro h
    exact ⟨_, h1 h, _, List.mem_singleton.mpr rfl, rfl⟩

/-- Witness for C15: connected, with a chat window focused. -/
theorem activity_fan_out_witness :
    prof_handle_activity ⟨.WIN_CHAT, .JABBER_CONNECTED, some ⟨"a@x".toList, .Paused⟩⟩ =
      some [.chat_state_handle_typing "a@x".toList .Paused] :=
  (activity_fan_out ⟨.WIN_CHAT, .JABBER_CONNECTED, some ⟨"a@x".toList, .Paused⟩⟩
    ⟨"a@x".toList, .Paused⟩ (fun _ => rfl)).1 ⟨rfl, rfl⟩

/-! ## The main loop -/

theorem inner_loop_body_calls (cfg : BuildConfig) (idle : Bool) (t : TickInput) :
    (inner_loop_body cfg idle t).2 =
      [.jabber_get_connection_status] ++ coordinatorCalls idle t
        ++ [.ui_get_char, .plugins_run_timed]
        ++ (if cfg.PROF_HAVE_LIBOTR then [.otr_poll] else [])
        ++ [.notify_remind, .jabber_process_events, .ui_update] := by
  unfold inner_loop_body coordinatorCalls
  by_cases h : t.conn_status = .JABBER_CONNECTED <;> simp [h]

theorem main_loop_cons_none (cfg : BuildConfig) (idle : Bool) (t : TickInput)
    (rest : List TickInput) (hl : t.line = none) :
    main_loop cfg idle (t :: rest) =
      { records := { body := (inner_loop_body cfg idle t).2, routed := none } ::
          (main_loop cfg (inner_loop_body cfg idle t).1 rest).records
        exited := (main_loop cfg (inner_loop_body cfg idle t).1 rest).exited
        idle := (main_loop cfg (inner_loop_body cfg idle t).1 rest).idle } := by
  simp only [main_loop, hl]

theorem main_loop_cons_continue (cfg : BuildConfig) (idle : Bool) (t : TickInput)
    (rest : List TickInput) (inp : CStr) (hl : t.line = some inp)
    (hr : (prof_process_input t.cmd inp).result = true) :
    main_loop cfg idle (t :: rest) =
      { records :=
          { body := (inner_loop_body cfg idle t).2,
            routed := some (prof_process_input t.cmd inp) } ::
          (main_loop cfg (inner_loop_body cfg idle t).1 rest).records
        exited := (main_loop cfg (inner_loop_body cfg idle t).1 rest).exited
        idle := (main_loop cfg (inner_loop_body cfg idle t).1 rest).idle } := by
  simp only [main_loop, hl, hr, if_true]

theorem main_loop_cons_terminate (cfg : BuildConfig) (idle : Bool) (t : TickInput)
    (rest : List TickInput) (inp : CStr) (hl : t.line = some inp)
    (hr : (prof_process_input t.cmd inp).result = false) :
    main_loop cfg idle (t :: rest) =
      { records :=
          [{ body := (inner_loop_body cfg idle t).2,
             routed := some (prof_process_input t.cmd inp) }]
        exited := true
        idle := (inner_loop_body cfg idle t).1 } := by
  simp [main_loop, hl, hr]

/-- The three ways an iteration can go, with the record it leaves in each. -/
theorem main_loop_cons_cases (cfg : BuildConfig) (idle : Bool) (t : TickInput)
    (rest : List TickInput) :
    (¬ t.terminates ∧
      main_loop cfg idle (t :: rest) =
        { records := { body := (inner_loop_body cfg idle t).2, routed := t.outcome } ::
            (main_loop cfg (inner_loop_body cfg idle t).1 rest).records
          exited := (main_loop cfg (inner_loop_body cfg idle t).1 rest).exited
          idle := (main_loop cfg (inner_loop_body cfg idle t).1 rest).idle }) ∨
    (t.terminates ∧
      main_loop cfg idle (t :: rest) =
        { records := [{ body := (inner_loop_body cfg idle t).2, routed := t.outcome }]
          exited := true
          idle := (inner_loop_body cfg idle t).1 }) := by
  cases hl : t.line with
  | none =>
    left
    refine ⟨?_, ?_⟩
    · rintro ⟨inp, h, _⟩
      rw [hl] at h
      cases h
    · rw [main_loop_cons_none cfg idle t rest hl]
      simp [TickInput.outcome, hl]
  | some inp =>
    cases hr : (prof_process_input t.cmd inp).result with
    | true =>
      left
      refine ⟨?_, ?_⟩
      · rintro ⟨inp', h, h'⟩
        rw [hl] at h
        cases h
        rw [hr] at h'
        cases h'
      · rw [main_loop_cons_continue cfg idle t rest inp hl hr]
        simp [TickInput.outcome, hl]
    | false =>
      right
      refine ⟨⟨inp, hl, hr⟩, ?_⟩
      rw [main_loop_cons_terminate cfg idle t rest inp hl hr]
      simp [TickInput.outcome, hl]

theorem not_mem_coordinatorCalls (idle : Bool) (t : TickInput) (c : Call)
    (h1 : c ≠ .handle_idle_time) (h2 : c.isPresenceUpdate = false)
    (h3 : c.isUiNotification = false) : c ∉ coordinatorCalls idle t := by
  unfold coordinatorCalls
  by_cases hc : t.conn_status = .JABBER_CONNECTED
  · rw [if_pos hc]
    intro hmem
    rcases List.mem_cons.mp hmem with h | h
    · exact h1 h
    · rcases handle_idle_time_calls_cases idle t.idle_inputs with e | ⟨p, m, n, e⟩ |
        ⟨p, m, n, u, hu, e⟩
      · rw [e] at h; exact absurd h (List.not_mem_nil c)
      · rw [e] at h
        rw [List.mem_singleton.mp h] at h2
        cases h2
      · rw [e] at h
        simp only [List.mem_cons, List.mem_singleton, List.not_mem_nil, or_false] at h
        rcases h with h | h
        · rw [h] at h2; cases h2
        · rw [h, hu] at h3; cases h3
  · rw [if_neg hc]
    exact List.not_mem_nil c

theorem inner_loop_body_counts (cfg : BuildConfig) (idle : Bool) (t : TickInput) :
    (inner_loop_body cfg idle t).2.count .plugins_run_timed = 1 ∧
    (inner_loop_body cfg idle t).2.count .jabber_process_events = 1 := by
  have h1 := List.count_eq_zero_of_not_mem
    (not_mem_coordinatorCalls idle t .plugins_run_timed (by decide) rfl rfl)
  have h2 := List.count_eq_zero_of_not_mem
    (not_mem_coordinatorCalls idle t .jabber_process_events (by decide) rfl rfl)
  rw [inner_loop_body_calls]
  cases cfg.PROF_HAVE_LIBOTR <;> simp [List.count_append, h1, h2]

theorem main_loop_without_terminate (cfg : BuildConfig) (idle : Bool) (pre : List TickInput)
    (hpre : ∀ u ∈ pre, ¬ u.terminates) :
    (main_loop cfg idle pre).exited = false ∧
    (main_loop cfg idle pre).records.length = pre.length ∧
    routedOutcomes (main_loop cfg idle pre).records = pre.filterMap TickInput.outcome := by
  induction pre generalizing idle with
  | nil => exact ⟨rfl, rfl, rfl⟩
  | cons u pre ih =>
    have hu := hpre u (List.mem_cons_self _ _)
    obtain ⟨h1, h2, h3⟩ :=
      ih (inner_loop_body cfg idle u).1 (fun v hv => hpre v (List.mem_cons_of_mem _ hv))
    rcases main_loop_cons_cases cfg idle u pre with ⟨_, e⟩ | ⟨ht, _⟩
    · rw [e]
      refine ⟨h1, by simp [h2], ?_⟩
      unfold routedOutcomes at h3 ⊢
      cases ho : u.outcome <;> simp [List.filterMap_cons, ho, h3]
    · exact absurd ht hu

theorem main_loop_stops_at_terminate (cfg : BuildConfig) (idle : Bool) (pre : List TickInput)
    (t : TickInput) (post : List TickInput)
    (hpre : ∀ u ∈ pre, ¬ u.terminates) (ht : t.terminates) :
    main_loop cfg idle (pre ++ t :: post) =
      { records := (main_loop cfg idle pre).records ++
          [{ body := (inner_loop_body cfg (main_loop cfg idle pre).idle t).2,
             routed := t.outcome }]
        exited := true
        idle := (inner_loop_body cfg (main_loop cfg idle pre).idle t).1 } := by
  induction pre generalizing idle with
  | nil =>
    rcases main_loop_cons_cases cfg idle t post with ⟨hn, _⟩ | ⟨_, e⟩
    · exact absurd ht hn
    · rw [List.nil_append, e]
      rfl
  | cons u pre ih =>
    have hu := hpre u (List.mem_cons_self _ _)
    have ih := ih (inner_loop_body cfg idle u).1 (fun v hv => hpre v (List.mem_cons_of_mem _ hv))
    rcases main_loop_cons_cases cfg idle u (pre ++ t :: post) with ⟨_, e⟩ | ⟨hx, _⟩
    · rcases main_loop_cons_cases cfg idle u pre with ⟨_, e'⟩ | ⟨hx, _⟩
      · rw [List.cons_append, e, e', ih]
        rfl
      · exact absurd hx hu
    · exact absurd hx hu

theorem exists_terminates_of_exited (cfg : BuildConfig) (idle : Bool) (ticks : List TickInput)
    (h : (main_loop cfg idle ticks).exited = true) : ∃ u ∈ ticks, u.terminates := by
  by_contra hn
  have hall : ∀ u ∈ ticks, ¬ u.terminates := fun u hu hc => hn ⟨u, hu, hc⟩
  rw [(main_loop_without_terminate cfg idle ticks hall).1] at h
  cases h

/-- C13: loop termination.  Let no iteration of `pre` read a line whose routing
returns `FALSE`.  Run on `pre`, the loop does not stop: every iteration is
executed, and every line read is routed exactly once, in order.  Followed by an
iteration `t` whose line is routed to `FALSE`, the loop stops right after that
line: the executed iterations are those of `pre` and `t`, the routed lines are
theirs, in order, and whatever iterations `post` would follow are neither
executed nor routed. -/
theorem loop_termination (cfg : BuildConfig) (idle : Bool) (pre : List TickInput)
    (t : TickInput) (post : List TickInput)
    (hpre : ∀ u ∈ pre, ¬ u.terminates) :
    ((main_loop cfg idle pre).exited = false ∧
      (main_loop cfg idle pre).records.length = pre.length ∧
      routedOutcomes (main_loop cfg idle pre).records = pre.filterMap TickInput.outcome) ∧
    (t.terminates →
      (main_loop cfg idle (pre ++ t :: post)).exited = true ∧
      (main_loop cfg idle (pre ++ t :: post)).records.length = pre.length + 1 ∧
      routedOutcomes (main_loop cfg idle (pre ++ t :: post)).records =
        (pre ++ [t]).filterMap TickInput.outcome ∧
      main_loop cfg idle (pre ++ t :: post) = main_loop cfg idle (pre ++ [t])) := by
  have hA := main_loop_without_terminate cfg idle pre hpre
  refine ⟨hA, fun ht => ?_⟩
  have hB := main_loop_stops_at_terminate cfg idle pre t post hpre ht
  have hB' := main_loop_stops_at_terminate cfg idle pre t [] hpre ht
  refine ⟨by rw [hB], by rw [hB]; simp [hA.2.1], ?_, by rw [hB, hB']⟩
  rw [hB]
  obtain ⟨inp, hl, _⟩ := ht
  have ho : t.outcome = some (prof_process_input t.cmd inp) := by
    simp [TickInput.outcome, hl]
  have h3 := hA.2.2
  unfold routedOutcomes at h3 ⊢
  simp [List.filterMap_append, h3, ho]

/-- Witness for C13: an iteration without a line, then the line `/quit` routed to
`FALSE`, then one more iteration that is never reached. -/
theorem loop_termination_witness :
    (main_loop ⟨true, 1000⟩ false
      ([⟨.JABBER_OTHER 0, ⟨10, 0, "off", .RESOURCE_ONLINE, none, false⟩, none,
          ⟨fun _ _ => false, fun _ => true⟩⟩] ++
        ⟨.JABBER_OTHER 0, ⟨10, 0, "off", .RESOURCE_ONLINE, none, false⟩, some "/quit".toList,
          ⟨fun _ _ => false, fun _ => true⟩⟩ ::
        [⟨.JABBER_OTHER 0, ⟨10, 0, "off", .RESOURCE_ONLINE, none, false⟩, some "hi".toList,
          ⟨fun _ _ => false, fun _ => true⟩⟩])).records.length = 1 + 1 :=
  ((loop_termination ⟨true, 1000⟩ false
      [⟨.JABBER_OTHER 0, ⟨10, 0, "off", .RESOURCE_ONLINE, none, false⟩, none,
        ⟨fun _ _ => false, fun _ => true⟩⟩]
      ⟨.JABBER_OTHER 0, ⟨10, 0, "off", .RESOURCE_ONLINE, none, false⟩, some "/quit".toList,
        ⟨fun _ _ => false, fun _ => true⟩⟩
      [⟨.JABBER_OTHER 0, ⟨10, 0, "off", .RESOURCE_ONLINE, none, false⟩, some "hi".toList,
        ⟨fun _ _ => false, fun _ => true⟩⟩]
      (by
        intro u hu
        rw [List.mem_singleton.mp hu]
        rintro ⟨inp, h, _⟩
        cases h)).2 ⟨"/quit".toList, rfl, by decide⟩).2.1

theorem main_loop_records_shape (cfg : BuildConfig) (idle : Bool) (ticks : List TickInput) :
    ∀ r ∈ (main_loop cfg idle ticks).records, ∃ (idle' : Bool) (t : TickInput), t ∈ ticks ∧
      r.body = (inner_loop_body cfg idle' t).2 ∧ r.routed = t.outcome := by
  induction ticks generalizing idle with
  | nil => intro r hr; exact absurd hr (List.not_mem_nil r)
  | cons u rest ih =>
    intro r hr
    rcases main_loop_cons_cases cfg idle u rest with ⟨_, e⟩ | ⟨_, e⟩
    · rw [e] at hr
      rcases List.mem_cons.mp hr with h | h
      · exact ⟨idle, u, List.mem_cons_self _ _, by rw [h], by rw [h]⟩
      · obtain ⟨idle', t, ht, hb, ho⟩ := ih _ r h
        exact ⟨idle', t, List.mem_cons_of_mem _ ht, hb, ho⟩
    · rw [e] at hr
      rw [List.mem_singleton.mp hr]
      exact ⟨idle, u, List.mem_cons_self _ _, rfl, rfl⟩

theorem main_loop_counts_without_line (cfg : BuildConfig) (idle : Bool)
    (ticks : List TickInput) (hnone : ∀ t ∈ ticks, t.line = none) :
    (main_loop cfg idle ticks).calls.count .plugins_run_timed = ticks.length ∧
    (main_loop cfg idle ticks).calls.count .jabber_process_events = ticks.length := by
  induction ticks generalizing idle with
  | nil => exact ⟨rfl, rfl⟩
  | cons u rest ih =>
    have hu := hnone u (List.mem_cons_self _ _)
    obtain ⟨h1, h2⟩ :=
      ih (inner_loop_body cfg idle u).1 (fun v hv => hnone v (List.mem_cons_of_mem _ hv))
    obtain ⟨c1, c2⟩ := inner_loop_body_counts cfg idle u
    unfold LoopOutcome.calls at h1 h2 ⊢
    rw [main_loop_cons_none cfg idle u rest hu]
    simp only [List.map_cons, List.flatten_cons, List.count_append, TickRecord.calls,
      List.append_nil, List.length_cons, h1, h2, c1, c2]
    omega

/-- C12, as stated, fails: in a build without `PROF_HAVE_LIBOTR` an iteration of the
inner loop makes no `otr_poll()` call.  The iteration shown is connected and
reads no line. -/
theorem tick_without_encryption_poll :
    (main_loop ⟨false, 1000⟩ false
      [⟨.JABBER_CONNECTED, ⟨10, 0, "away", .RESOURCE_ONLINE, none, false⟩, none,
        ⟨fun _ _ => true, fun _ => true⟩⟩]).records =
      [{ body := [.jabber_get_connection_status, .handle_idle_time, .ui_get_char,
                  .plugins_run_timed, .notify_remind, .jabber_process_events, .ui_update]
         routed := none }] := by
  decide

/-- C12, amended: every executed iteration of the inner loop makes, in this order, the
connection-status query, the invocation of the idle coordinator with its calls
(exactly when the status is connected), one `ui_get_char` poll, and then
`plugins_run_timed()`, `otr_poll()` (only in a build with `PROF_HAVE_LIBOTR`),
`notify_remind()`, `jabber_process_events()` and `ui_update()`; on an iteration
that read a line all of these precede the calls of routing that line.  Over
iterations none of which reads a line the loop does not end, all of them are
executed, and `plugins_run_timed()` and `jabber_process_events()` are each
called exactly once per iteration. -/
theorem fixed_tick_order (cfg : BuildConfig) (idle : Bool) (ticks : List TickInput) :
    (∀ r ∈ (main_loop cfg idle ticks).records, ∃ (idle' : Bool) (t : TickInput), t ∈ ticks ∧
      r.body = [.jabber_get_connection_status] ++ coordinatorCalls idle' t
          ++ [.ui_get_char, .plugins_run_timed]
          ++ (if cfg.PROF_HAVE_LIBOTR then [.otr_poll] else [])
          ++ [.notify_remind, .jabber_process_events, .ui_update] ∧
      (Call.handle_idle_time ∈ r.body ↔ t.conn_status = .JABBER_CONNECTED) ∧
      r.routed = t.outcome ∧
      r.calls = r.body ++ (match t.outcome with | none => [] | some o => o.calls)) ∧
    ((∀ t ∈ ticks, t.line = none) →
      (main_loop cfg idle ticks).exited = false ∧
      (main_loop cfg idle ticks).records.length = ticks.length ∧
      (main_loop cfg idle ticks).calls.count .plugins_run_timed = ticks.length ∧
      (main_loop cfg idle ticks).calls.count .jabber_process_events = ticks.length) := by
  refine ⟨fun r hr => ?_, fun hnone => ?_⟩
  · obtain ⟨idle', t, ht, hb, ho⟩ := main_loop_records_shape cfg idle ticks r hr
    refine ⟨idle', t, ht, ?_, ?_, ho, ?_⟩
    · rw [hb, inner_loop_body_calls]
    · rw [hb, inner_loop_body_calls]
      unfold coordinatorCalls
      by_cases hc : t.conn_status = .JABBER_CONNECTED
      · simp [hc]
      · cases cfg.PROF_HAVE_LIBOTR <;> simp [hc]
    · unfold TickRecord.calls
      rw [ho]
  · have hno : ∀ u ∈ ticks, ¬ u.terminates := by
      rintro u hu ⟨inp, h, _⟩
      rw [hnone u hu] at h
      cases h
    obtain ⟨h1, h2, _⟩ := main_loop_without_terminate cfg idle ticks hno
    obtain ⟨h3, h4⟩ := main_loop_counts_without_line cfg idle ticks hnone
    exact ⟨h1, h2, h3, h4⟩

/-! ## Start-up -/

theorem prof_process_input_calls_head (c : CommandCollaborators) (raw : CStr) :
    (prof_process_input c raw).calls.head? = some (.log_debug raw) := by
  unfold prof_process_input
  simp

/-- C16, as stated, fails: with an input buffer of 1000 characters and an account
argument of 1000 characters, the line handed to `prof_process_input` at start-up
is `/connect ` followed by the first 990 characters of the argument only. -/
theorem startup_line_cut_to_buffer :
    ∃ o, (prof_run ⟨true, 1000⟩
            ⟨0, [], some (List.replicate 1000 'a'), none,
              ⟨fun _ _ => true, fun _ => true⟩, []⟩).startup_routed = some o ∧
      o.calls.head? = some (.log_debug ("/connect ".toList ++ List.replicate 990 'a')) ∧
      "/connect ".toList ++ List.replicate 990 'a' ≠
        "/connect ".toList ++ List.replicate 1000 'a' := by
  have e9 : "/connect ".toList.length = 9 := rfl
  refine ⟨_, rfl, ?_, ?_⟩
  · rw [prof_process_input_calls_head]
    have : snprintf_s_s 1000 "/connect".toList (List.replicate 1000 'a') =
        "/connect ".toList ++ List.replicate 990 'a' := by
      unfold snprintf_s_s
      have e : "/connect".toList ++ [' '] ++ List.replicate 1000 'a' =
          ("/connect ".toList ++ List.replicate 990 'a') ++ List.replicate 10 'a' := by
        rw [List.append_assoc _ (List.replicate 990 'a'), List.append_replicate_replicate]
        rfl
      rw [e]
      apply List.take_left'
      rw [List.length_append, List.length_replicate, e9]
    rw [this]
  · intro h
    have := congrArg List.length h
    rw [List.length_append, List.length_append, List.length_replicate,
      List.length_replicate, e9] at this
    omega

/-- C16, amended: before the first iteration `prof_run` hands to `prof_process_input`
exactly one line, the text `/connect <target>` cut to at most `INP_WIN_MAX - 1`
characters (the whole text when it is shorter than `INP_WIN_MAX`), where the
target is the account argument if one was given and otherwise the configured
default account if one is set; the argument takes precedence over the default.
If neither exists no line is routed.  The calls before the loop are `_init`,
`plugins_on_start()`, those of routing that line (if any), `ui_update()`,
`log_info` and the first connection-status query. -/
theorem startup_routing (cfg : BuildConfig) (i : RunInputs) :
    (∀ target : CStr,
      (i.account_name = some target ∨
        (i.account_name = none ∧ i.pref_connect_account = some target)) →
      (prof_run cfg i).startup_routed =
          some (prof_process_input i.startup_cmd
            (("/connect ".toList ++ target).take (cfg.INP_WIN_MAX - 1))) ∧
      (("/connect ".toList ++ target).length < cfg.INP_WIN_MAX →
        (prof_run cfg i).startup_routed =
          some (prof_process_input i.startup_cmd ("/connect ".toList ++ target)))) ∧
    (i.account_name = none → i.pref_connect_account = none →
      (prof_run cfg i).startup_routed = none) ∧
    (prof_run cfg i).startup_calls =
      [.init i.disable_tls i.log_level, .plugins_on_start]
        ++ (match (prof_run cfg i).startup_routed with | none => [] | some o => o.calls)
        ++ [.ui_update, .log_info "Starting main event loop", .jabber_get_connection_status] := by
  have hcut : ∀ target : CStr,
      (i.account_name = some target ∨
        (i.account_name = none ∧ i.pref_connect_account = some target)) →
      (prof_run cfg i).startup_routed =
          some (prof_process_input i.startup_cmd
            (("/connect ".toList ++ target).take (cfg.INP_WIN_MAX - 1))) := by
    intro target h
    have e : "/connect".toList ++ [' '] ++ target = "/connect ".toList ++ target := rfl
    rcases h with h | ⟨h1, h2⟩
    · simp only [prof_run, h, snprintf_s_s, e]
    · simp only [prof_run, h1, h2, snprintf_s_s, e]
  refine ⟨fun target h => ⟨hcut target h, fun hlen => ?_⟩, fun h1 h2 => ?_, rfl⟩
  · rw [hcut target h, List.take_of_length_le (by omega)]
  · simp only [prof_run, h1, h2]

/-- C20: the result of routing the start-up line does not gate the loop.  Whatever
the dispatch collaborators answer for the start-up line, `prof_run` enters the
loop with the flag `idle` cleared and executes the first iteration in full, the
loop runs exactly as it does for any other answer, and the loop ends only
through an iteration that read a line whose routing returned `FALSE`. -/
theorem startup_outcome_does_not_gate (cfg : BuildConfig) (i : RunInputs)
    (c : CommandCollaborators) (t : TickInput) (rest : List TickInput) :
    (∃ rs, (prof_run cfg { i with startup_cmd := c, ticks := t :: rest }).loop.records =
      { body := (inner_loop_body cfg false t).2, routed := t.outcome } :: rs) ∧
    (prof_run cfg { i with startup_cmd := c, ticks := t :: rest }).loop =
      (prof_run cfg { i with ticks := t :: rest }).loop ∧
    ((prof_run cfg { i with startup_cmd := c, ticks := t :: rest }).loop.exited = true →
      ∃ u ∈ t :: rest, u.terminates) := by
  refine ⟨?_, rfl, fun h => exists_terminates_of_exited cfg false (t :: rest) h⟩
  show ∃ rs, (main_loop cfg false (t :: rest)).records = _ :: rs
  rcases main_loop_cons_cases cfg false t rest with ⟨_, e⟩ | ⟨_, e⟩
  · rw [e]; exact ⟨_, rfl⟩
  · rw [e]; exact ⟨_, rfl⟩

end Profanity
